import Mathlib

/-!
Verification of the RTP/VP9 depacketizer (libavformat/rtpdec_vp9.c).

The C function vp9_handle_packet receives one RTP packet payload
(buf, len), the RTP timestamp, the RTP sequence number and the marker
flag, together with the per-stream PayloadContext (a growable frame
buffer plus the timestamp recorded when the buffer was opened).  It
parses the variable-length VP9 payload descriptor, appends the bytes
after the descriptor to the frame buffer, and emits the buffer as one
frame when the end-of-frame fragment arrives.

The embedding below models packet bytes as a list of naturals (each
read is taken modulo 256, matching the uint8_t reads of the C code)
together with an explicit length argument, mirroring the C buf/len
cursor: the parser advances by dropping bytes from the list and
decrementing the length, and every consume is guarded exactly where
the C code guards it.  Machine-level concerns that cannot affect the
values computed (allocation failure of the dynamic buffer, logging)
are not modelled; values the C code reads but never uses (picture id,
layer ids, resolutions) are consumed but not computed, exactly as the
av_unused variables of the source.
-/

namespace RtpVp9

/-- Error results of the handler: AVERROR_INVALIDDATA for malformed
packets and AVERROR_PATCHWELCOME for recognized-but-unsupported
layouts. -/
inductive VP9Err where
  | invalidData
  | patchWelcome
deriving DecidableEq, Repr

/-- Result of one call of the handler: a finalized frame (return value
0 together with the emitted packet bytes), the need-more-data result
AVERROR(EAGAIN), or an error code. -/
inductive VP9Result where
  | frame (data : List Nat)
  | again
  | err (e : VP9Err)
deriving DecidableEq, Repr

/-- struct PayloadContext: the dynamic buffer (present exactly while a
frame reassembly is in progress) and the timestamp recorded when the
buffer was opened. -/
structure PayloadContext where
  buf : Option (List Nat)
  timestamp : Nat
deriving DecidableEq, Repr

/-- Read of the byte at the cursor (buf[0] in the C code).  Bytes are
uint8_t, hence the reduction modulo 256. -/
def readByte (mem : List Nat) : Nat :=
  mem.headD 0 % 256

/-- Picture-id section (flag I): one byte, or two bytes when the high
bit of the first byte is set; the single-byte read is not preceded by
its own length guard in the C code (the initial len check justifies
it), and the two-byte form re-checks the remaining length. -/
def vp9PicIdSection (hasPicId : Bool) (mem : List Nat) (len : Nat) :
    Except VP9Err (List Nat × Nat) :=
  if hasPicId then
    if (readByte mem).testBit 7 then
      if len < 2 then .error .invalidData
      else .ok (mem.drop 2, len - 2)
    else .ok (mem.drop 1, len - 1)
  else .ok (mem, len)

/-- Layer-indices section (flag L): one byte, plus the TL0PICIDX byte
when reference indices are absent (non-flexible mode). -/
def vp9LayerSection (hasLayerIdc hasRefIdc : Bool) (mem : List Nat) (len : Nat) :
    Except VP9Err (List Nat × Nat) :=
  if hasLayerIdc then
    if len < 1 then .error .invalidData
    else
      if hasRefIdc then .ok (mem.drop 1, len - 1)
      else
        if len - 1 < 1 then .error .invalidData
        else .ok (mem.drop 2, len - 2)
  else .ok (mem, len)

/-- Reference-indices loop (flags F and P both set): up to three
one-byte records, bits 7..1 the picture-id diff and bit 0 the
continuation flag; a zero diff is malformed, and the loop stops at the
first record whose continuation flag is clear. -/
def vp9RefDiffLoop : Nat → List Nat → Nat → Except VP9Err (List Nat × Nat)
  | 0, mem, len => .ok (mem, len)
  | fuel + 1, mem, len =>
    if len < 1 then .error .invalidData
    else if readByte mem / 2 = 0 then .error .invalidData
    else if readByte mem % 2 = 0 then .ok (mem.drop 1, len - 1)
    else vp9RefDiffLoop fuel (mem.drop 1) (len - 1)

/-- Picture-group loop of the scalability structure: n_g entries, each
one byte (bits 3..2 give the count r of following picture-id-diff
bytes) followed by r bytes. -/
def vp9PGLoop : Nat → List Nat → Nat → Except VP9Err (List Nat × Nat)
  | 0, mem, len => .ok (mem, len)
  | n + 1, mem, len =>
    if len < 1 then .error .invalidData
    else if len - 1 < readByte mem / 4 % 4 then .error .invalidData
    else vp9PGLoop n (mem.drop (1 + readByte mem / 4 % 4))
           (len - (1 + readByte mem / 4 % 4))

/-- Propagation of a cursor-advancing parse step: on error the error
is returned unchanged, otherwise the continuation runs on the advanced
cursor and remaining length (the early-return pattern of the C code). -/
def exBind (x : Except VP9Err (List Nat × Nat))
    (f : List Nat → Nat → Except VP9Err (List Nat × Nat)) :
    Except VP9Err (List Nat × Nat) :=
  match x with
  | .error e => .error e
  | .ok (n, l) => f n l

/-- Scalability-structure section (flag V): one byte with n_s in the
top three bits, the Y and G flags; more than one spatial layer is
reported as an unsupported layout (AVERROR_PATCHWELCOME); with Y set,
four bytes of resolution per layer; with G set, a count byte and the
picture-group loop. -/
def vp9ParseSS (mem : List Nat) (len : Nat) : Except VP9Err (List Nat × Nat) :=
  if len < 1 then .error .invalidData
  else if 0 < readByte mem / 32 then .error .patchWelcome
  else
    exBind (if (readByte mem).testBit 4 then
              if len - 1 < 4 * (readByte mem / 32 + 1) then .error .invalidData
              else .ok ((mem.drop 1).drop (4 * (readByte mem / 32 + 1)),
                        len - 1 - 4 * (readByte mem / 32 + 1))
            else .ok (mem.drop 1, len - 1))
      (fun mem2 len2 =>
        if (readByte mem).testBit 3 then
          if len2 < 1 then .error .invalidData
          else vp9PGLoop (readByte mem2) (mem2.drop 1) (len2 - 1)
        else .ok (mem2, len2))

/-- Chain of optional descriptor sections after the required byte b0,
in source order: picture id, layer indices, reference indices,
scalability structure, followed by the final check that at least one
byte of codec payload remains. -/
def vp9ParseOptionalSections (b0 : Nat) (mem : List Nat) (len : Nat) :
    Except VP9Err (List Nat × Nat) :=
  exBind (vp9PicIdSection (b0.testBit 7) mem len) (fun m1 l1 =>
    exBind (vp9LayerSection (b0.testBit 5) (b0.testBit 4) m1 l1) (fun m2 l2 =>
      exBind (if b0.testBit 4 && b0.testBit 6 then vp9RefDiffLoop 3 m2 l2
              else .ok (m2, l2)) (fun m3 l3 =>
        exBind (if b0.testBit 1 then vp9ParseSS m3 l3 else .ok (m3, l3))
          (fun m4 l4 =>
            if l4 < 1 then .error .invalidData
            else .ok (m4, l4)))))

/-- Full descriptor parse of one packet: the minimum-size check
(required byte plus one payload byte), decoding of the required flag
byte, the check that the frame-end flag E equals the RTP marker, then
the optional sections.  On success it returns the frame-start flag B,
the frame-end flag E, and the codec payload cursor and length. -/
def vp9ParseDescriptor (mem : List Nat) (len : Nat) (rtpM : Bool) :
    Except VP9Err (Bool × Bool × List Nat × Nat) :=
  if len < 2 then .error .invalidData
  else if ((readByte mem).testBit 2 ≠ rtpM) then .error .invalidData
  else
    match vp9ParseOptionalSections (readByte mem) (mem.drop 1) (len - 1) with
    | .error e => .error e
    | .ok (m, l) =>
      .ok ((readByte mem).testBit 3, (readByte mem).testBit 2, m, l)

/-- Body of vp9_handle_packet after the continuity rule: the
descriptor parse and, on success, the state machine: with no buffer
open, a frame-start packet opens one (recording the packet timestamp)
and any other packet yields EAGAIN; the payload bytes are appended,
and the buffer is emitted as a frame exactly when the frame-end flag
is set. -/
def vp9_handle_core (c : PayloadContext) (mem : List Nat) (len : Nat)
    (timestamp : Nat) (marker : Bool) : VP9Result × PayloadContext :=
  match vp9ParseDescriptor mem len marker with
  | .error e => (.err e, c)
  | .ok (firstFragment, lastFragment, pmem, plen) =>
    match c.buf with
    | none =>
      if firstFragment then
        if lastFragment then
          (.frame (pmem.take plen), { buf := none, timestamp := timestamp })
        else
          (.again, { buf := some (pmem.take plen), timestamp := timestamp })
      else (.again, c)
    | some data =>
      if lastFragment then
        (.frame (data ++ pmem.take plen), { c with buf := none })
      else (.again, { c with buf := some (data ++ pmem.take plen) })

/-- The packet handler vp9_handle_packet: first the continuity rule
(an in-progress buffer recorded at a different timestamp is freed),
then the body above.  The sequence number is received and, as in the C
code, never used. -/
def vp9_handle_packet (c : PayloadContext) (mem : List Nat) (len : Nat)
    (timestamp : Nat) (seq : Nat) (marker : Bool) :
    VP9Result × PayloadContext :=
  vp9_handle_core
    (if c.buf.isSome = true ∧ c.timestamp ≠ timestamp then
       { c with buf := none } else c)
    mem len timestamp marker

/-- Handler applied to a whole packet (len equals the number of payload
bytes, as at the call sites of the C function). -/
def vp9HandlePacket (c : PayloadContext) (pkt : List Nat)
    (timestamp : Nat) (seq : Nat) (marker : Bool) :
    VP9Result × PayloadContext :=
  vp9_handle_packet c pkt pkt.length timestamp seq marker

/-- vp9_close_context: frees the dynamic buffer if present.  The
timestamp field is left as is (it is meaningful only while a buffer is
present). -/
def vp9_close_context (c : PayloadContext) : PayloadContext :=
  { c with buf := none }

/-- Sequential processing of a list of packets, each a triple of
payload bytes, timestamp and marker flag; returns the per-packet
results in order together with the final context. -/
def vp9ProcessPackets : PayloadContext → List (List Nat × Nat × Bool) →
    List VP9Result × PayloadContext
  | c, [] => ([], c)
  | c, (pkt, ts, m) :: rest =>
    let r := vp9HandlePacket c pkt ts 0 m
    let rs := vp9ProcessPackets r.2 rest
    (r.1 :: rs.1, rs.2)

/-- The descriptor of packet p parses successfully under marker m. -/
def vp9ParseOk (p : List Nat) (m : Bool) : Bool :=
  match vp9ParseDescriptor p p.length m with
  | .ok _ => true
  | .error _ => false

/-- Frame-start flag B of a packet (bit 3 of the required byte). -/
def vp9StartFlag (p : List Nat) : Bool :=
  (readByte p).testBit 3

/-- Codec payload of packet p under marker m: the bytes after the
descriptor, or the empty list when the parse fails. -/
def payloadOf (p : List Nat) (m : Bool) : List Nat :=
  match vp9ParseDescriptor p p.length m with
  | .ok (_, _, pm, pl) => pm.take pl
  | .error _ => []

/-! Basic facts about the parse and the handler, shared by the claim
theorems below. -/

lemma exBind_ok (n : List Nat) (l : Nat)
    (f : List Nat → Nat → Except VP9Err (List Nat × Nat)) :
    exBind (.ok (n, l)) f = f n l := rfl

lemma exBind_err (e : VP9Err)
    (f : List Nat → Nat → Except VP9Err (List Nat × Nat)) :
    exBind (.error e) f = .error e := rfl

lemma exBind_ok_elim {x : Except VP9Err (List Nat × Nat)}
    {f : List Nat → Nat → Except VP9Err (List Nat × Nat)}
    {n : List Nat} {l : Nat} (h : exBind x f = .ok (n, l)) :
    ∃ n0 l0, x = .ok (n0, l0) ∧ f n0 l0 = .ok (n, l) := by
  cases x with
  | error e => exact absurd h (by simp [exBind])
  | ok v =>
    obtain ⟨n0, l0⟩ := v
    exact ⟨n0, l0, rfl, h⟩

lemma optSections_ok_len {b0 : Nat} {mem : List Nat} {len : Nat}
    {pm : List Nat} {pl : Nat}
    (hp : vp9ParseOptionalSections b0 mem len = .ok (pm, pl)) : 1 ≤ pl := by
  unfold vp9ParseOptionalSections at hp
  obtain ⟨n1, l1, _, hp⟩ := exBind_ok_elim hp
  obtain ⟨n2, l2, _, hp⟩ := exBind_ok_elim hp
  obtain ⟨n3, l3, _, hp⟩ := exBind_ok_elim hp
  obtain ⟨n4, l4, _, hp⟩ := exBind_ok_elim hp
  split at hp
  · exact absurd hp (by simp)
  · injection hp with h
    injection h with h1 h2
    omega

lemma parse_ok_facts {mem : List Nat} {len : Nat} {m b e : Bool}
    {pm : List Nat} {pl : Nat}
    (hp : vp9ParseDescriptor mem len m = .ok (b, e, pm, pl)) :
    b = (readByte mem).testBit 3 ∧ e = m ∧ 1 ≤ pl ∧ 2 ≤ len := by
  unfold vp9ParseDescriptor at hp
  split at hp
  · exact absurd hp (by simp)
  · rename_i hlen
    split at hp
    · exact absurd hp (by simp)
    · rename_i hmk
      split at hp
      · exact absurd hp (by simp)
      · rename_i res mm ll hopt
        injection hp with h
        injection h with hb h
        injection h with he h
        injection h with hpm hpl
        refine ⟨hb.symm, ?_, ?_, by omega⟩
        · rw [← he]
          exact of_not_not hmk
        · rw [← hpl]
          exact optSections_ok_len hopt

lemma discard_noop {c : PayloadContext} {ts : Nat}
    (hc : c.buf = none ∨ c.timestamp = ts) :
    ¬(c.buf.isSome = true ∧ c.timestamp ≠ ts) := by
  rcases hc with h | h
  · simp [h]
  · simp [h]

lemma handle_packet_eq_core {c : PayloadContext} {mem : List Nat}
    {len ts seq : Nat} {m : Bool} (hc : c.buf = none ∨ c.timestamp = ts) :
    vp9_handle_packet c mem len ts seq m = vp9_handle_core c mem len ts m := by
  unfold vp9_handle_packet
  rw [if_neg (discard_noop hc)]

lemma handle_parse_error (c : PayloadContext) (mem : List Nat)
    (len ts seq : Nat) (m : Bool) (er : VP9Err)
    (hc : c.buf = none ∨ c.timestamp = ts)
    (hp : vp9ParseDescriptor mem len m = .error er) :
    vp9_handle_packet c mem len ts seq m = (.err er, c) := by
  rw [handle_packet_eq_core hc]
  unfold vp9_handle_core
  rw [hp]

lemma handle_open (c : PayloadContext) (mem : List Nat) (len ts seq : Nat)
    (m e : Bool) (pm : List Nat) (pl : Nat) (hc : c.buf = none)
    (hp : vp9ParseDescriptor mem len m = .ok (true, e, pm, pl)) :
    vp9_handle_packet c mem len ts seq m =
      (if e then .frame (pm.take pl) else .again,
       if e then ⟨none, ts⟩ else ⟨some (pm.take pl), ts⟩) := by
  rw [handle_packet_eq_core (Or.inl hc)]
  unfold vp9_handle_core
  rw [hp, hc]
  cases e <;> simp

lemma handle_no_open (c : PayloadContext) (mem : List Nat) (len ts seq : Nat)
    (m e : Bool) (pm : List Nat) (pl : Nat) (hc : c.buf = none)
    (hp : vp9ParseDescriptor mem len m = .ok (false, e, pm, pl)) :
    vp9_handle_packet c mem len ts seq m = (.again, c) := by
  rw [handle_packet_eq_core (Or.inl hc)]
  unfold vp9_handle_core
  rw [hp, hc]
  simp

lemma handle_append (acc : List Nat) (T : Nat) (mem : List Nat)
    (len seq : Nat) (m b e : Bool) (pm : List Nat) (pl : Nat)
    (hp : vp9ParseDescriptor mem len m = .ok (b, e, pm, pl)) :
    vp9_handle_packet ⟨some acc, T⟩ mem len T seq m =
      (if e then .frame (acc ++ pm.take pl) else .again,
       if e then ⟨none, T⟩ else ⟨some (acc ++ pm.take pl), T⟩) := by
  rw [handle_packet_eq_core (Or.inr rfl)]
  unfold vp9_handle_core
  rw [hp]
  cases e <;> simp

/-! Claim theorems. -/

/-- C9: discarding an Idle context is a no-op: vp9_close_context
applied to a context with no buffer in progress returns it unchanged,
and closing twice equals closing once (idempotence). -/
theorem vp9_c9_discard_idempotent :
    (∀ c : PayloadContext, c.buf = none → vp9_close_context c = c) ∧
    (∀ c : PayloadContext,
      vp9_close_context (vp9_close_context c) = vp9_close_context c) := by
  constructor
  · intro c hc
    cases c with
    | mk b t =>
      simp only [PayloadContext.mk.injEq] at hc ⊢
      simp [vp9_close_context, hc]
  · intro c
    rfl

/-- Witness for C9 at the concrete Idle context with timestamp 3. -/
theorem vp9_c9_witness :
    vp9_close_context ⟨none, 3⟩ = (⟨none, 3⟩ : PayloadContext) :=
  vp9_c9_discard_idempotent.1 ⟨none, 3⟩ rfl

/-- C8: for a packet whose required descriptor byte d has all
optional-section flags clear (I bit 7, L bit 5, F bit 4, V bit 1) and
whose marker agrees with the E flag, the descriptor parse succeeds if
and only if the packet has at least 2 bytes, and on success it exposes
every byte after the descriptor as the codec payload; with zero
trailing bytes (such as the packet consisting of byte 0x08 alone) the
packet is rejected as malformed. -/
theorem vp9_c8_min_size (d : Nat) (rest : List Nat) (m : Bool)
    (hd : d < 256)
    (hI : d.testBit 7 = false) (hL : d.testBit 5 = false)
    (hF : d.testBit 4 = false) (hV : d.testBit 1 = false)
    (hm : m = d.testBit 2) :
    (1 ≤ rest.length →
      vp9ParseDescriptor (d :: rest) (d :: rest).length m =
        .ok (d.testBit 3, d.testBit 2, rest, rest.length)) ∧
    (rest.length < 1 →
      vp9ParseDescriptor (d :: rest) (d :: rest).length m =
        .error .invalidData) := by
  have hrb : readByte (d :: rest) = d := by
    simp [readByte, Nat.mod_eq_of_lt hd]
  constructor
  · intro h1
    have hopt : vp9ParseOptionalSections d ((d :: rest).drop 1)
        ((d :: rest).length - 1) = .ok (rest, rest.length) := by
      simp only [List.drop_one, List.tail_cons, List.length_cons,
        Nat.add_sub_cancel]
      unfold vp9ParseOptionalSections vp9PicIdSection vp9LayerSection
      rw [hI, hL, hF, hV]
      simp only [Bool.false_eq_true, if_false, Bool.false_and, exBind_ok]
      rw [if_neg (by omega)]
    unfold vp9ParseDescriptor
    rw [if_neg (by simp only [List.length_cons]; omega), hrb,
      if_neg (by simp [hm]), hopt]
  · intro h0
    unfold vp9ParseDescriptor
    rw [if_pos (by simp only [List.length_cons]; omega)]

/-- Witness for C8: the 2-byte packet with descriptor byte 0x08 and
one trailing byte parses, exposing that byte as the whole payload. -/
theorem vp9_c8_witness :
    vp9ParseDescriptor [8, 170] 2 false = .ok (true, false, [170], 1) := by
  have h := (vp9_c8_min_size 8 [170] false (by decide) (by decide) (by decide)
    (by decide) (by decide) (by decide)).1 (by decide)
  exact h.trans (by rfl)

/-- C5: for every packet of length at least 2, the parse rejects the
packet as malformed when the decoded frame-end flag (bit 2 of the
required byte) differs from the transport marker, and when the two
flags agree the parse proceeds past the check, its result being
exactly that of the optional-section chain. -/
theorem vp9_c5_marker_check (mem : List Nat) (len : Nat) (m : Bool)
    (h2 : 2 ≤ len) :
    (¬((readByte mem).testBit 2 = m) →
      vp9ParseDescriptor mem len m = .error .invalidData) ∧
    ((readByte mem).testBit 2 = m →
      vp9ParseDescriptor mem len m =
        match vp9ParseOptionalSections (readByte mem) (mem.drop 1) (len - 1) with
        | .error e => .error e
        | .ok (pm, pl) =>
          .ok ((readByte mem).testBit 3, (readByte mem).testBit 2, pm, pl)) := by
  constructor
  · intro hne
    unfold vp9ParseDescriptor
    rw [if_neg (by omega), if_pos hne]
  · intro heq
    unfold vp9ParseDescriptor
    rw [if_neg (by omega), if_neg (by simp [heq])]

/-- Witness for C5: the packet 0x04 0xAA has the E flag set, so with
the marker clear it is rejected as malformed. -/
theorem vp9_c5_witness :
    vp9ParseDescriptor [4, 170] 2 false = .error .invalidData :=
  (vp9_c5_marker_check [4, 170] 2 false (by decide)).1 (by decide)

/-- C6: a scalability structure declaring more than one spatial layer
(top three bits of the SS byte non-zero) stops the parse with the
Unsupported-layout result, which is a different result from
Malformed-packet; in particular the packet 0x02 0x20 0xAA produces
Unsupported-layout and leaves the context untouched whenever no
discard is triggered by the continuity rule (no buffer in progress, or
a matching timestamp). -/
theorem vp9_c6_unsupported_layout :
    (∀ (mem : List Nat) (len : Nat), 1 ≤ len → 0 < readByte mem / 32 →
      vp9ParseSS mem len = .error .patchWelcome) ∧
    (VP9Err.patchWelcome ≠ VP9Err.invalidData) ∧
    (∀ (c : PayloadContext) (ts seq : Nat), c.buf = none ∨ c.timestamp = ts →
      vp9HandlePacket c [0x02, 0x20, 0xAA] ts seq false =
        (.err .patchWelcome, c)) := by
    refine ⟨?_, by simp, ?_⟩
    · intro mem len h1 hns
      unfold vp9ParseSS
      rw [if_neg (by omega), if_pos hns]
    · intro c ts seq hc
      exact handle_parse_error c [0x02, 0x20, 0xAA] 3 ts seq false
        .patchWelcome hc (by rfl)

/-- Witness for C6 at the Idle context. -/
theorem vp9_c6_witness :
    vp9HandlePacket ⟨none, 0⟩ [0x02, 0x20, 0xAA] 7 0 false =
      (.err .patchWelcome, ⟨none, 0⟩) :=
  vp9_c6_unsupported_layout.2.2 ⟨none, 0⟩ 7 0 (Or.inl rfl)

/-- C3 counterexample: from the Idle context, the packet 0x08 0xAA
(frame-start flag only, frame-end flag clear) does not instantly
finalize a frame: with the marker clear it merely opens the buffer and
returns the awaiting-more-data result, and with the marker set it is
rejected for the frame-end/marker mismatch.  In neither case is the
1-byte frame 0xAA emitted. -/
theorem vp9_c3_counterexample :
    vp9HandlePacket ⟨none, 0⟩ [0x08, 0xAA] 7 0 false =
      (.again, ⟨some [0xAA], 7⟩) ∧
    vp9HandlePacket ⟨none, 0⟩ [0x08, 0xAA] 7 0 true =
      (.err .invalidData, ⟨none, 0⟩) ∧
    (vp9HandlePacket ⟨none, 0⟩ [0x08, 0xAA] 7 0 false).1 ≠
      .frame [0xAA] ∧
    (vp9HandlePacket ⟨none, 0⟩ [0x08, 0xAA] 7 0 true).1 ≠
      .frame [0xAA] := by
  decide

/-- C3 amended: from an Idle context, instant finalization of the
1-byte frame 0xAA needs the frame-end flag and marker as well, i.e.
the packet 0x0C 0xAA with the marker set; the packet 0x08 0xAA with
the marker clear starts a frame (recording the packet timestamp) and
returns awaiting-more-data. -/
theorem vp9_c3_amended (c : PayloadContext) (ts seq : Nat)
    (hc : c.buf = none) :
    vp9HandlePacket c [0x0C, 0xAA] ts seq true =
      (.frame [0xAA], ⟨none, ts⟩) ∧
    vp9HandlePacket c [0x08, 0xAA] ts seq false =
      (.again, ⟨some [0xAA], ts⟩) := by
  constructor
  · exact (handle_open c [0x0C, 0xAA] 2 ts seq true true [0xAA] 1 hc
      (by rfl)).trans (by simp)
  · exact (handle_open c [0x08, 0xAA] 2 ts seq false false [0xAA] 1 hc
      (by rfl)).trans (by simp)

/-- Witness for C3 (amended) at the Idle context with timestamp 5. -/
theorem vp9_c3_witness :
    vp9HandlePacket ⟨none, 0⟩ [0x0C, 0xAA] 5 0 true =
      (.frame [0xAA], ⟨none, 5⟩) :=
  (vp9_c3_amended ⟨none, 0⟩ 5 0 rfl).1

/-- C2 counterexample: a malformed packet does not always leave an
in-progress buffer untouched.  With a buffer recorded at timestamp 5,
the 1-byte (too short, hence malformed) packet 0x08 arriving with
timestamp 7 first triggers the continuity discard and only then is
rejected: the packet is rejected as malformed yet the buffer is gone. -/
theorem vp9_c2_counterexample :
    vp9HandlePacket ⟨some [1, 2], 5⟩ [0x08] 7 0 false =
      (.err .invalidData, ⟨none, 5⟩) ∧
    ((⟨none, 5⟩ : PayloadContext) ≠ ⟨some [1, 2], 5⟩) := by
  decide

/-- C2 amended: for every packet rejected by the parse (malformed or
unsupported), the rejection affects only that packet and the context
is returned untouched, provided the continuity rule does not fire
first, i.e. whenever no buffer is in progress or the packet's
timestamp equals the recorded one; a rejected packet whose timestamp
differs from the recorded one has the in-progress buffer discarded by
the continuity rule before the packet is rejected. -/
theorem vp9_c2_amended (c : PayloadContext) (pkt : List Nat)
    (ts seq : Nat) (m : Bool) (er : VP9Err)
    (hc : c.buf = none ∨ c.timestamp = ts)
    (hp : vp9ParseDescriptor pkt pkt.length m = .error er) :
    vp9HandlePacket c pkt ts seq m = (.err er, c) :=
  handle_parse_error c pkt pkt.length ts seq m er hc hp

/-- Witness for C2 (amended): a too-short packet arriving with the
same timestamp as the in-progress buffer leaves the context exactly as
it was. -/
theorem vp9_c2_witness :
    vp9HandlePacket ⟨some [1, 2], 5⟩ [0x08] 5 0 false =
      (.err .invalidData, ⟨some [1, 2], 5⟩) :=
  vp9_c2_amended ⟨some [1, 2], 5⟩ [0x08] 5 0 false .invalidData
    (Or.inr rfl) (by rfl)

/-- C4: a packet whose timestamp differs from the one recorded for the
in-progress buffer behaves exactly as if the buffer had been discarded
first; with a matching timestamp the buffer is never invalidated (it
can only leave the context by being emitted as a frame extending the
accumulated data); and the handler does not depend on the sequence
number at all, so sequence-number gaps never invalidate a buffer. -/
theorem vp9_c4_timestamp_discard (c : PayloadContext) (d pkt : List Nat)
    (ts seq seq2 : Nat) (m : Bool) :
    (c.buf = some d → c.timestamp ≠ ts →
      vp9HandlePacket c pkt ts seq m =
        vp9HandlePacket ⟨none, c.timestamp⟩ pkt ts seq m) ∧
    (c.buf = some d → c.timestamp = ts →
      (vp9HandlePacket c pkt ts seq m).2.buf = none →
      ∃ p, (vp9HandlePacket c pkt ts seq m).1 = .frame (d ++ p)) ∧
    vp9HandlePacket c pkt ts seq m = vp9HandlePacket c pkt ts seq2 m := by
  refine ⟨?_, ?_, rfl⟩
  · intro hb hne
    unfold vp9HandlePacket vp9_handle_packet
    rw [if_pos ⟨by rw [hb]; rfl, hne⟩, if_neg (by simp)]
  · intro hb heq h2
    unfold vp9HandlePacket at h2 ⊢
    rw [handle_packet_eq_core (Or.inr heq)] at h2 ⊢
    unfold vp9_handle_core at h2 ⊢
    cases hp : vp9ParseDescriptor pkt pkt.length m with
    | error e =>
      rw [hp] at h2
      have h3 : c.buf = none := h2
      rw [hb] at h3
      cases h3
    | ok v =>
      obtain ⟨b, e, pm, pl⟩ := v
      rw [hp] at h2
      rw [hb] at h2 ⊢
      cases e with
      | false => simp at h2
      | true => exact ⟨pm.take pl, by simp⟩

/-- Witness for C4: with a buffer recorded at timestamp 5 and a packet
arriving at timestamp 7, the handler gives the same outcome as from
the discarded context. -/
theorem vp9_c4_witness :
    vp9HandlePacket ⟨some [1], 5⟩ [0x08, 0xAA] 7 0 false =
      vp9HandlePacket ⟨none, 5⟩ [0x08, 0xAA] 7 0 false :=
  (vp9_c4_timestamp_discard ⟨some [1], 5⟩ [1] [0x08, 0xAA] 7 0 0 false).1
    rfl (by decide)

/-- Unfolding of one iteration of the reference-indices loop. -/
lemma refDiffLoop_succ (fuel : Nat) (mem : List Nat) (len : Nat) :
    vp9RefDiffLoop (fuel + 1) mem len =
      if len < 1 then .error .invalidData
      else if readByte mem / 2 = 0 then .error .invalidData
      else if readByte mem % 2 = 0 then .ok (mem.drop 1, len - 1)
      else vp9RefDiffLoop fuel (mem.drop 1) (len - 1) := rfl

/-- Unfolding of the reference-indices loop at fuel 3. -/
lemma refDiffLoop_three (mem : List Nat) (len : Nat) :
    vp9RefDiffLoop 3 mem len =
      if len < 1 then .error .invalidData
      else if readByte mem / 2 = 0 then .error .invalidData
      else if readByte mem % 2 = 0 then .ok (mem.drop 1, len - 1)
      else vp9RefDiffLoop 2 (mem.drop 1) (len - 1) := rfl

/-- Unfolding of the reference-indices loop at fuel 2. -/
lemma refDiffLoop_two (mem : List Nat) (len : Nat) :
    vp9RefDiffLoop 2 mem len =
      if len < 1 then .error .invalidData
      else if readByte mem / 2 = 0 then .error .invalidData
      else if readByte mem % 2 = 0 then .ok (mem.drop 1, len - 1)
      else vp9RefDiffLoop 1 (mem.drop 1) (len - 1) := rfl

/-- Unfolding of the reference-indices loop at fuel 1. -/
lemma refDiffLoop_one (mem : List Nat) (len : Nat) :
    vp9RefDiffLoop 1 mem len =
      if len < 1 then .error .invalidData
      else if readByte mem / 2 = 0 then .error .invalidData
      else if readByte mem % 2 = 0 then .ok (mem.drop 1, len - 1)
      else vp9RefDiffLoop 0 (mem.drop 1) (len - 1) := rfl

/-- The reference-indices loop with no fuel left consumes nothing. -/
lemma refDiffLoop_zero (mem : List Nat) (len : Nat) :
    vp9RefDiffLoop 0 mem len = .ok (mem, len) := rfl

/-- On success the reference-indices loop consumes at most fuel bytes,
never more than the remaining length, and leaves the cursor advanced
by exactly the number of consumed bytes. -/
lemma refDiffLoop_consume (fuel : Nat) (mem : List Nat) (len : Nat)
    (pm : List Nat) (pl : Nat)
    (hok : vp9RefDiffLoop fuel mem len = .ok (pm, pl)) :
    pl ≤ len ∧ len - pl ≤ fuel ∧ pm = mem.drop (len - pl) := by
  induction fuel generalizing mem len with
  | zero =>
    injection hok with h
    injection h with h1 h2
    subst h1; subst h2
    simp
  | succ n ih =>
    rw [refDiffLoop_succ] at hok
    split at hok
    · exact absurd hok (by simp)
    · rename_i hlen
      split at hok
      · exact absurd hok (by simp)
      · split at hok
        · injection hok with h
          injection h with h1 h2
          subst h1; subst h2
          refine ⟨by omega, by omega, ?_⟩
          congr 1
          omega
        · obtain ⟨ha, hb, hc⟩ := ih (mem.drop 1) (len - 1) hok
          refine ⟨by omega, by omega, ?_⟩
          rw [hc, List.drop_drop]
          congr 1
          omega

/-- C7: with reference indices present on an inter-predicted frame,
the parser reads at most three one-byte records (bits 7..1 the diff,
bit 0 the continuation flag); it stops consuming at the first record
whose continuation flag is clear; a record with diff value zero, or
the payload running out before a record, is a malformed-packet error. -/
theorem vp9_c7_ref_diffs (mem : List Nat) (len : Nat) :
    (∀ (pm : List Nat) (pl : Nat), vp9RefDiffLoop 3 mem len = .ok (pm, pl) →
      pl ≤ len ∧ len - pl ≤ 3 ∧ pm = mem.drop (len - pl)) ∧
    (1 ≤ len → readByte mem / 2 ≠ 0 → readByte mem % 2 = 0 →
      vp9RefDiffLoop 3 mem len = .ok (mem.drop 1, len - 1)) ∧
    (2 ≤ len → readByte mem / 2 ≠ 0 → readByte mem % 2 = 1 →
      readByte (mem.drop 1) / 2 ≠ 0 → readByte (mem.drop 1) % 2 = 0 →
      vp9RefDiffLoop 3 mem len = .ok (mem.drop 2, len - 2)) ∧
    (3 ≤ len → readByte mem / 2 ≠ 0 → readByte mem % 2 = 1 →
      readByte (mem.drop 1) / 2 ≠ 0 → readByte (mem.drop 1) % 2 = 1 →
      readByte (mem.drop 2) / 2 ≠ 0 →
      vp9RefDiffLoop 3 mem len = .ok (mem.drop 3, len - 3)) ∧
    (1 ≤ len → readByte mem / 2 = 0 →
      vp9RefDiffLoop 3 mem len = .error .invalidData) ∧
    (2 ≤ len → readByte mem / 2 ≠ 0 → readByte mem % 2 = 1 →
      readByte (mem.drop 1) / 2 = 0 →
      vp9RefDiffLoop 3 mem len = .error .invalidData) ∧
    (3 ≤ len → readByte mem / 2 ≠ 0 → readByte mem % 2 = 1 →
      readByte (mem.drop 1) / 2 ≠ 0 → readByte (mem.drop 1) % 2 = 1 →
      readByte (mem.drop 2) / 2 = 0 →
      vp9RefDiffLoop 3 mem len = .error .invalidData) ∧
    (len = 0 → vp9RefDiffLoop 3 mem len = .error .invalidData) ∧
    (len = 1 → readByte mem / 2 ≠ 0 → readByte mem % 2 = 1 →
      vp9RefDiffLoop 3 mem len = .error .invalidData) ∧
    (len = 2 → readByte mem / 2 ≠ 0 → readByte mem % 2 = 1 →
      readByte (mem.drop 1) / 2 ≠ 0 → readByte (mem.drop 1) % 2 = 1 →
      vp9RefDiffLoop 3 mem len = .error .invalidData) := by
  have e2 : (mem.drop 1).drop 1 = mem.drop 2 := by rw [List.drop_drop]
  have e3 : (mem.drop 2).drop 1 = mem.drop 3 := by rw [List.drop_drop]
  have l2 : len - 1 - 1 = len - 2 := by omega
  have l3 : len - 2 - 1 = len - 3 := by omega
  refine ⟨refDiffLoop_consume 3 mem len, ?_, ?_, ?_, ?_, ?_, ?_, ?_, ?_, ?_⟩
  · intro hl hd hc
    rw [refDiffLoop_three, if_neg (by omega), if_neg hd, if_pos hc]
  · intro hl hd hc hd1 hc1
    rw [refDiffLoop_three, if_neg (by omega), if_neg hd, if_neg (by omega),
      refDiffLoop_two, if_neg (by omega), if_neg hd1, if_pos hc1, e2, l2]
  · intro hl hd hc hd1 hc1 hd2
    rw [refDiffLoop_three, if_neg (by omega), if_neg hd, if_neg (by omega),
      refDiffLoop_two, if_neg (by omega), if_neg hd1, if_neg (by omega),
      e2, l2, refDiffLoop_one, if_neg (by omega), if_neg hd2]
    split
    · rw [e3, l3]
    · rw [e3, l3, refDiffLoop_zero]
  · intro hl hd
    rw [refDiffLoop_three, if_neg (by omega), if_pos hd]
  · intro hl hd hc hd1
    rw [refDiffLoop_three, if_neg (by omega), if_neg hd, if_neg (by omega),
      refDiffLoop_two, if_neg (by omega), if_pos hd1]
  · intro hl hd hc hd1 hc1 hd2
    rw [refDiffLoop_three, if_neg (by omega), if_neg hd, if_neg (by omega),
      refDiffLoop_two, if_neg (by omega), if_neg hd1, if_neg (by omega),
      e2, l2, refDiffLoop_one, if_neg (by omega), if_pos hd2]
  · intro hl
    rw [refDiffLoop_three, if_pos (by omega)]
  · intro hl hd hc
    rw [refDiffLoop_three, if_neg (by omega), if_neg hd, if_neg (by omega),
      refDiffLoop_two, if_pos (by omega)]
  · intro hl hd hc hd1 hc1
    rw [refDiffLoop_three, if_neg (by omega), if_neg hd, if_neg (by omega),
      refDiffLoop_two, if_neg (by omega), if_neg hd1, if_neg (by omega),
      e2, l2, refDiffLoop_one, if_pos (by omega)]

/-- Witness for C7: three records with continuation flags set consume
exactly three bytes and stop, leaving the fourth byte unread. -/
theorem vp9_c7_witness :
    vp9RefDiffLoop 3 [3, 3, 3, 9] 4 = .ok ([9], 1) := by
  have h := (vp9_c7_ref_diffs [3, 3, 3, 9] 4).2.2.2.1 (by decide) (by decide)
    (by decide) (by decide) (by decide) (by decide)
  exact h.trans (by rfl)

/-- Unfolding of packet-list processing at a cons cell. -/
lemma processPackets_cons (c : PayloadContext) (pkt : List Nat) (ts : Nat)
    (m : Bool) (rest : List (List Nat × Nat × Bool)) :
    vp9ProcessPackets c ((pkt, ts, m) :: rest) =
      ((vp9HandlePacket c pkt ts 0 m).1 ::
        (vp9ProcessPackets (vp9HandlePacket c pkt ts 0 m).2 rest).1,
       (vp9ProcessPackets (vp9HandlePacket c pkt ts 0 m).2 rest).2) := rfl

/-- Unfolding of packet-list processing at the empty list. -/
lemma processPackets_nil (c : PayloadContext) :
    vp9ProcessPackets c [] = ([], c) := rfl

/-- A successful boolean parse check yields the parse result with the
frame-start bit of the required byte, the frame-end flag equal to the
marker, and the corresponding payload. -/
lemma parseOk_elim {p : List Nat} {m : Bool} (h : vp9ParseOk p m = true) :
    ∃ pm pl, vp9ParseDescriptor p p.length m =
        .ok ((readByte p).testBit 3, m, pm, pl) ∧
      payloadOf p m = pm.take pl := by
  unfold vp9ParseOk at h
  cases hp : vp9ParseDescriptor p p.length m with
  | error e => rw [hp] at h; simp at h
  | ok v =>
    obtain ⟨b, e, pm, pl⟩ := v
    obtain ⟨hb, he, _, _⟩ := parse_ok_facts hp
    refine ⟨pm, pl, ?_, ?_⟩
    · rw [hb, he]
    · unfold payloadOf
      rw [hp]

/-- While a buffer is open at timestamp T, a run of further fragments
with the same timestamp, the continuation fragments without frame-end
and the final one with frame-end and marker, appends every payload in
order and emits one frame on the final fragment. -/
lemma run_accumulating (T : Nat) (mids : List (List Nat)) :
    ∀ (acc : List Nat) (lastp : List Nat),
    (∀ p ∈ mids, vp9ParseOk p false = true) →
    vp9ParseOk lastp true = true →
    vp9ProcessPackets ⟨some acc, T⟩
        ((mids.map fun p => (p, T, false)) ++ [(lastp, T, true)]) =
      ((mids.map fun _ => VP9Result.again) ++
        [.frame (acc ++ ((mids.map fun p => payloadOf p false).flatten ++
          payloadOf lastp true))],
       ⟨none, T⟩) := by
  induction mids with
  | nil =>
    intro acc lastp hm hl
    obtain ⟨pm, pl, hp, hpay⟩ := parseOk_elim hl
    have hr : vp9HandlePacket ⟨some acc, T⟩ lastp T 0 true =
        (.frame (acc ++ payloadOf lastp true), ⟨none, T⟩) := by
      unfold vp9HandlePacket
      rw [handle_append acc T lastp lastp.length 0 true _ true pm pl hp, hpay]
      simp
    simp [processPackets_cons, processPackets_nil, hr]
  | cons p mids ih =>
    intro acc lastp hm hl
    obtain ⟨pm, pl, hp, hpay⟩ := parseOk_elim (hm p (by simp))
    have hr : vp9HandlePacket ⟨some acc, T⟩ p T 0 false =
        (.again, ⟨some (acc ++ payloadOf p false), T⟩) := by
      unfold vp9HandlePacket
      rw [handle_append acc T p p.length 0 false _ false pm pl hp, hpay]
      simp
    have hrest := ih (acc ++ payloadOf p false) lastp
      (fun q hq => hm q (by simp [hq])) hl
    simp only [List.map_cons, List.cons_append, processPackets_cons, hr,
      hrest, List.flatten_cons]
    simp [List.append_assoc]

/-- C1: from an Idle context, a frame delivered as fragments sharing
one timestamp T, in order, the first carrying the frame-start flag,
only the final one carrying the frame-end flag together with the
transport marker, makes the handler return the awaiting-more-data
result for every fragment but the last and emit, on the last fragment,
exactly one frame equal to the ordered concatenation of every
fragment's post-descriptor payload bytes; the final context records
timestamp T, the timestamp taken from the fragment that opened the
buffer (all fragments share it).  The single-fragment case (frame
start, end and marker on the one packet) and the multi-fragment case
are stated separately.  Parse success of each fragment under its
marker value already forces the frame-end flag to equal the marker, so
the end flag is clear on all but the final fragment. -/
theorem vp9_c1_reassembly (T : Nat) (c0 : PayloadContext)
    (h0 : c0.buf = none) :
    (∀ pkt, vp9ParseOk pkt true = true → vp9StartFlag pkt = true →
      vp9ProcessPackets c0 [(pkt, T, true)] =
        ([.frame (payloadOf pkt true)], ⟨none, T⟩)) ∧
    (∀ (first : List Nat) (mids : List (List Nat)) (lastp : List Nat),
      vp9ParseOk first false = true → vp9StartFlag first = true →
      (∀ p ∈ mids, vp9ParseOk p false = true) →
      vp9ParseOk lastp true = true →
      vp9ProcessPackets c0
          ((first, T, false) ::
            ((mids.map fun p => (p, T, false)) ++ [(lastp, T, true)])) =
        (.again :: ((mids.map fun _ => VP9Result.again) ++
           [.frame (payloadOf first false ++
             ((mids.map fun p => payloadOf p false).flatten ++
               payloadOf lastp true))]),
         ⟨none, T⟩)) := by
  constructor
  · intro pkt hok hstart
    obtain ⟨pm, pl, hp, hpay⟩ := parseOk_elim hok
    rw [show (readByte pkt).testBit 3 = true from hstart] at hp
    have hr : vp9HandlePacket c0 pkt T 0 true =
        (.frame (payloadOf pkt true), ⟨none, T⟩) := by
      unfold vp9HandlePacket
      rw [handle_open c0 pkt pkt.length T 0 true true pm pl h0 hp, hpay]
      simp
    simp [processPackets_cons, processPackets_nil, hr]
  · intro first mids lastp hfirst hstart hmids hlast
    obtain ⟨pm, pl, hp, hpay⟩ := parseOk_elim hfirst
    rw [show (readByte first).testBit 3 = true from hstart] at hp
    have hr : vp9HandlePacket c0 first T 0 false =
        (.again, ⟨some (payloadOf first false), T⟩) := by
      unfold vp9HandlePacket
      rw [handle_open c0 first first.length T 0 false false pm pl h0 hp, hpay]
      simp
    have hrest := run_accumulating T mids (payloadOf first false) lastp
      hmids hlast
    simp only [processPackets_cons, hr, hrest]

/-- Witness for C1: a three-fragment frame with payload bytes 1, 2 and
3 is reassembled into the frame 1 2 3, with awaiting-more-data
returned on the first two fragments. -/
theorem vp9_c1_witness :
    vp9ProcessPackets ⟨none, 0⟩
        [([0x08, 1], 7, false), ([0x00, 2], 7, false), ([0x04, 3], 7, true)] =
      ([.again, .again, .frame [1, 2, 3]], ⟨none, 7⟩) := by
  have h := (vp9_c1_reassembly 7 ⟨none, 0⟩ rfl).2 [0x08, 1] [[0x00, 2]]
    [0x04, 3] (by decide) (by decide) (by decide) (by decide)
  exact h.trans (by rfl)

/-! For C10 (no read beyond the declared length) the embedding keeps
the byte list and the length argument separate, exactly as the C code
keeps its buf pointer and len counter: a read past the declared length
would make the result depend on bytes of the list beyond position
len.  The theorem therefore states that the handler yields identical
results on any two byte lists that agree on their first len bytes;
every guarded read of the parser is covered by the congruence lemmas
below, the initial two-byte check alone justifying the unguarded read
of the first optional picture-id byte. -/

/-- Two cursor results agree up to the remaining length: same error,
or same remaining length with the remaining windows byte-for-byte
equal. -/
def ExTakeEq : Except VP9Err (List Nat × Nat) →
    Except VP9Err (List Nat × Nat) → Prop
  | .error e1, .error e2 => e1 = e2
  | .ok (n1, l1), .ok (n2, l2) => l1 = l2 ∧ n1.take l1 = n2.take l2
  | .error _, .ok _ => False
  | .ok _, .error _ => False

lemma exTakeEq_err (e : VP9Err) :
    ExTakeEq (.error e) (.error e) := rfl

lemma exTakeEq_ok {n1 n2 : List Nat} {l : Nat} (h : n1.take l = n2.take l) :
    ExTakeEq (.ok (n1, l)) (.ok (n2, l)) := ⟨rfl, h⟩

lemma exTakeEq_cases {x y : Except VP9Err (List Nat × Nat)}
    (hxy : ExTakeEq x y) :
    (∃ e, x = .error e ∧ y = .error e) ∨
    (∃ n1 n2 l, x = .ok (n1, l) ∧ y = .ok (n2, l) ∧
      n1.take l = n2.take l) := by
  match x, y with
  | .error e1, .error e2 =>
    have h : e1 = e2 := hxy
    subst h
    exact Or.inl ⟨e1, rfl, rfl⟩
  | .ok (n1, l1), .ok (n2, l2) =>
    have h : l1 = l2 ∧ n1.take l1 = n2.take l2 := hxy
    obtain ⟨h1, h2⟩ := h
    subst h1
    exact Or.inr ⟨n1, n2, l1, rfl, rfl, h2⟩
  | .error e1, .ok v => exact (hxy : False).elim
  | .ok v, .error e2 => exact (hxy : False).elim

lemma exBind_congr {x y : Except VP9Err (List Nat × Nat)}
    {F G : List Nat → Nat → Except VP9Err (List Nat × Nat)}
    (hxy : ExTakeEq x y)
    (hFG : ∀ n1 n2 l, n1.take l = n2.take l → ExTakeEq (F n1 l) (G n2 l)) :
    ExTakeEq (exBind x F) (exBind y G) := by
  rcases exTakeEq_cases hxy with ⟨e, h1, h2⟩ | ⟨n1, n2, l, h1, h2, ht⟩
  · rw [h1, h2]
    exact exTakeEq_err e
  · rw [h1, h2, exBind_ok, exBind_ok]
    exact hFG n1 n2 l ht

/-- Bytes below the length bound agree, hence the cursor byte read
agrees: the 1-byte guard is exactly what makes buf[0] safe. -/
lemma readByte_congr {m1 m2 : List Nat} {len : Nat} (h1 : 1 ≤ len)
    (h : m1.take len = m2.take len) : readByte m1 = readByte m2 := by
  obtain ⟨k, rfl⟩ : ∃ k, len = k + 1 := ⟨len - 1, by omega⟩
  cases m1 with
  | nil =>
    cases m2 with
    | nil => rfl
    | cons b t => simp [List.take_succ_cons] at h
  | cons a t =>
    cases m2 with
    | nil => simp [List.take_succ_cons] at h
    | cons b t2 =>
      simp only [List.take_succ_cons, List.cons.injEq] at h
      simp [readByte, h.1]

/-- Advancing both cursors by k bytes preserves agreement on the
remaining window. -/
lemma take_drop_congr (k : Nat) {m1 m2 : List Nat} {len : Nat}
    (h : m1.take len = m2.take len) :
    (m1.drop k).take (len - k) = (m2.drop k).take (len - k) := by
  rw [← List.drop_take, ← List.drop_take, h]

lemma picId_congr (hasPicId : Bool) {m1 m2 : List Nat} {len : Nat}
    (h1 : 1 ≤ len) (h : m1.take len = m2.take len) :
    ExTakeEq (vp9PicIdSection hasPicId m1 len)
             (vp9PicIdSection hasPicId m2 len) := by
  unfold vp9PicIdSection
  rw [readByte_congr h1 h]
  split
  · split
    · split
      · exact exTakeEq_err _
      · exact exTakeEq_ok (take_drop_congr 2 h)
    · exact exTakeEq_ok (take_drop_congr 1 h)
  · exact exTakeEq_ok h

lemma layer_congr (hasLayerIdc hasRefIdc : Bool) {m1 m2 : List Nat}
    {len : Nat} (h : m1.take len = m2.take len) :
    ExTakeEq (vp9LayerSection hasLayerIdc hasRefIdc m1 len)
             (vp9LayerSection hasLayerIdc hasRefIdc m2 len) := by
  unfold vp9LayerSection
  split
  · split
    · exact exTakeEq_err _
    · split
      · exact exTakeEq_ok (take_drop_congr 1 h)
      · split
        · exact exTakeEq_err _
        · exact exTakeEq_ok (take_drop_congr 2 h)
  · exact exTakeEq_ok h

lemma refDiff_congr (fuel : Nat) : ∀ {m1 m2 : List Nat} {len : Nat},
    m1.take len = m2.take len →
    ExTakeEq (vp9RefDiffLoop fuel m1 len) (vp9RefDiffLoop fuel m2 len) := by
  induction fuel with
  | zero =>
    intro m1 m2 len h
    exact exTakeEq_ok h
  | succ n ih =>
    intro m1 m2 len h
    rw [refDiffLoop_succ, refDiffLoop_succ]
    split
    · exact exTakeEq_err _
    · rename_i hlen
      rw [readByte_congr (show 1 ≤ len by omega) h]
      split
      · exact exTakeEq_err _
      · split
        · exact exTakeEq_ok (take_drop_congr 1 h)
        · exact ih (take_drop_congr 1 h)

/-- Unfolding of one entry of the picture-group loop. -/
lemma pgLoop_succ (n : Nat) (mem : List Nat) (len : Nat) :
    vp9PGLoop (n + 1) mem len =
      if len < 1 then .error .invalidData
      else if len - 1 < readByte mem / 4 % 4 then .error .invalidData
      else vp9PGLoop n (mem.drop (1 + readByte mem / 4 % 4))
             (len - (1 + readByte mem / 4 % 4)) := rfl

lemma pgLoop_congr (n : Nat) : ∀ {m1 m2 : List Nat} {len : Nat},
    m1.take len = m2.take len →
    ExTakeEq (vp9PGLoop n m1 len) (vp9PGLoop n m2 len) := by
  induction n with
  | zero =>
    intro m1 m2 len h
    exact exTakeEq_ok h
  | succ k ih =>
    intro m1 m2 len h
    rw [pgLoop_succ, pgLoop_succ]
    split
    · exact exTakeEq_err _
    · rename_i hlen
      rw [readByte_congr (show 1 ≤ len by omega) h]
      split
      · exact exTakeEq_err _
      · exact ih (take_drop_congr _ h)

lemma ss_congr {m1 m2 : List Nat} {len : Nat}
    (h : m1.take len = m2.take len) :
    ExTakeEq (vp9ParseSS m1 len) (vp9ParseSS m2 len) := by
  unfold vp9ParseSS
  split
  · exact exTakeEq_err _
  · rename_i hlen
    rw [readByte_congr (show 1 ≤ len by omega) h]
    split
    · exact exTakeEq_err _
    · refine exBind_congr ?_ ?_
      · split
        · split
          · exact exTakeEq_err _
          · exact exTakeEq_ok (take_drop_congr _ (take_drop_congr 1 h))
        · exact exTakeEq_ok (take_drop_congr 1 h)
      · intro n1 n2 l ht
        split
        · split
          · exact exTakeEq_err _
          · rename_i hl
            rw [readByte_congr (show 1 ≤ l by omega) ht]
            exact pgLoop_congr _ (take_drop_congr 1 ht)
        · exact exTakeEq_ok ht

lemma optSections_congr (b0 : Nat) {m1 m2 : List Nat} {len : Nat}
    (h1 : 1 ≤ len) (h : m1.take len = m2.take len) :
    ExTakeEq (vp9ParseOptionalSections b0 m1 len)
             (vp9ParseOptionalSections b0 m2 len) := by
  unfold vp9ParseOptionalSections
  refine exBind_congr (picId_congr _ h1 h) ?_
  intro n1 n2 l ht
  refine exBind_congr (layer_congr _ _ ht) ?_
  intro n1 n2 l ht
  refine exBind_congr ?_ ?_
  · split
    · exact refDiff_congr 3 ht
    · exact exTakeEq_ok ht
  · intro n1 n2 l ht
    refine exBind_congr ?_ ?_
    · split
      · exact ss_congr ht
      · exact exTakeEq_ok ht
    · intro n1 n2 l ht
      split
      · exact exTakeEq_err _
      · exact exTakeEq_ok ht

/-- Agreement relation for full descriptor parses: same error, or same
flags, same remaining length and byte-for-byte equal payload window. -/
def ExTakeEq4 : Except VP9Err (Bool × Bool × List Nat × Nat) →
    Except VP9Err (Bool × Bool × List Nat × Nat) → Prop
  | .error e1, .error e2 => e1 = e2
  | .ok (b1, e1, n1, l1), .ok (b2, e2, n2, l2) =>
      b1 = b2 ∧ e1 = e2 ∧ l1 = l2 ∧ n1.take l1 = n2.take l2
  | .error _, .ok _ => False
  | .ok _, .error _ => False

lemma exTakeEq4_cases {x y : Except VP9Err (Bool × Bool × List Nat × Nat)}
    (hxy : ExTakeEq4 x y) :
    (∃ e, x = .error e ∧ y = .error e) ∨
    (∃ b e n1 n2 l, x = .ok (b, e, n1, l) ∧ y = .ok (b, e, n2, l) ∧
      n1.take l = n2.take l) := by
  match x, y with
  | .error e1, .error e2 =>
    have h : e1 = e2 := hxy
    subst h
    exact Or.inl ⟨e1, rfl, rfl⟩
  | .ok (b1, e1, n1, l1), .ok (b2, e2, n2, l2) =>
    have h : b1 = b2 ∧ e1 = e2 ∧ l1 = l2 ∧ n1.take l1 = n2.take l2 := hxy
    obtain ⟨hb, he, hl, ht⟩ := h
    subst hb; subst he; subst hl
    exact Or.inr ⟨b1, e1, n1, n2, l1, rfl, rfl, ht⟩
  | .error e1, .ok v => exact (hxy : False).elim
  | .ok v, .error e2 => exact (hxy : False).elim

lemma parseDescriptor_congr (rtpM : Bool) {m1 m2 : List Nat} {len : Nat}
    (h : m1.take len = m2.take len) :
    ExTakeEq4 (vp9ParseDescriptor m1 len rtpM)
              (vp9ParseDescriptor m2 len rtpM) := by
  unfold vp9ParseDescriptor
  split
  · exact rfl
  · rename_i hlen
    rw [readByte_congr (show 1 ≤ len by omega) h]
    split
    · exact rfl
    · rcases exTakeEq_cases
        (optSections_congr (readByte m2) (show 1 ≤ len - 1 by omega)
          (take_drop_congr 1 h)) with ⟨e, h1, h2⟩ | ⟨n1, n2, l, h1, h2, ht⟩
      · rw [h1, h2]
        exact rfl
      · rw [h1, h2]
        exact ⟨rfl, rfl, rfl, ht⟩

lemma handle_core_congr (c : PayloadContext) {m1 m2 : List Nat}
    {len : Nat} (ts : Nat) (mk : Bool) (h : m1.take len = m2.take len) :
    vp9_handle_core c m1 len ts mk = vp9_handle_core c m2 len ts mk := by
  unfold vp9_handle_core
  rcases exTakeEq4_cases (parseDescriptor_congr mk h) with
    ⟨e, h1, h2⟩ | ⟨b, e, n1, n2, l, h1, h2, ht⟩
  · rw [h1, h2]
  · rw [h1, h2]
    simp only [ht]

/-- C10: the handler never reads a payload byte at or beyond the
declared length: its complete result, for every context, timestamp,
sequence number and marker, is identical on any two byte lists that
agree on their first len bytes, so bytes at offsets at or beyond len
cannot influence it. -/
theorem vp9_c10_no_oob_reads (c : PayloadContext) (m1 m2 : List Nat)
    (len ts seq : Nat) (mk : Bool) (h : m1.take len = m2.take len) :
    vp9_handle_packet c m1 len ts seq mk =
      vp9_handle_packet c m2 len ts seq mk := by
  unfold vp9_handle_packet
  exact handle_core_congr _ ts mk h

/-- Witness for C10: two packets agreeing on their first two bytes and
differing beyond the declared length 2 give the same result. -/
theorem vp9_c10_witness :
    vp9_handle_packet ⟨none, 0⟩ [0x08, 0xAA, 99] 2 5 0 false =
      vp9_handle_packet ⟨none, 0⟩ [0x08, 0xAA, 77] 2 5 0 false :=
  vp9_c10_no_oob_reads ⟨none, 0⟩ [0x08, 0xAA, 99] [0x08, 0xAA, 77] 2 5 0
    false (by rfl)

end RtpVp9
